import Mathlib

/-!
Shallow embedding of the two CosmWasm modules of this repository:

* `Counter` embeds `src/code_journal_1_counter_contract.rs`: a persisted
  `State {count : i32, owner, poll_count}` record with increment, decrement,
  owner-gated reset, and a count query.

* `Whitelist` embeds `src/code_journal_2_cw_whitelist.rs`: a persisted
  `AdminList {admins : Vec<Addr>, mutable : bool}` record with delegated
  execution, a one-way freeze, wholesale admin replacement and two queries.

Modelling conventions:

* The single persisted record of each module is passed explicitly as an
  `Option` (`none` = record absent, in which case `Item::load` fails); every
  execute/instantiate operation returns the new store paired with
  `Except ContractError response`, mirroring the Rust `Result`.
* Identities (`Addr`, sender strings) are Lean `String`s.  The host's
  `api.addr_validate` collaborator is abstracted by a validity predicate
  `valid : String → Bool` passed as a parameter.
* The counter's `i32` arithmetic (`state.count += 1`) is embedded as `Int`
  with explicit two's-complement wrapping (`wrap32`), the release-profile
  overflow semantics of the fixed-width type used by the source.
* The contract-version metadata written by `set_contract_version` is host
  bookkeeping on a separate storage key, outside the module record modelled
  here.
-/

/-- Error taxonomy shared by both modules: `Unauthorized` (authorization
predicate failed), `InvalidAddress` (malformed identity rejected by
`addr_validate`), `StoreErr` (persisted-record I/O failure, e.g. loading an
absent record). -/
inductive ContractError where
  | Unauthorized : ContractError
  | InvalidAddress : String → ContractError
  | StoreErr : ContractError
deriving DecidableEq, Repr

instance {e a : Type} [DecidableEq e] [DecidableEq a] : DecidableEq (Except e a) :=
  fun x y =>
    match x, y with
    | .ok v, .ok w => if h : v = w then .isTrue (by simp [h]) else .isFalse (by simp [h])
    | .error v, .error w => if h : v = w then .isTrue (by simp [h]) else .isFalse (by simp [h])
    | .ok _, .error _ => .isFalse (by simp)
    | .error _, .ok _ => .isFalse (by simp)

/-- A contract response: the ordered list of forwarded sub-messages plus the
key/value attributes, mirroring `cosmwasm_std::Response<T>`. -/
structure Response (M : Type) where
  messages : List M
  attributes : List (String × String)
deriving DecidableEq, Repr

namespace Counter

/-- The counter module's persisted record, from `state.rs` usage in the
contract: `count : i32`, `owner : Addr`, `poll_count` initialized to zero. -/
structure State where
  count : Int
  owner : String
  poll_count : Int
deriving DecidableEq, Repr

/-- Two's-complement wrap into the `i32` range, the release-profile semantics
of Rust `i32` addition and subtraction used by `try_increment`/`try_decrement`. -/
def wrap32 (n : Int) : Int := (n + 2 ^ 31) % 2 ^ 32 - 2 ^ 31

/-- `ExecuteMsg` of the counter module (`msg.rs`): `Increment {}`,
`Decrement {}`, `Reset {count}`. -/
inductive ExecuteMsg where
  | Increment : ExecuteMsg
  | Decrement : ExecuteMsg
  | Reset : Int → ExecuteMsg
deriving DecidableEq, Repr

/-- `CountResponse` returned by `QueryMsg::GetCount`. -/
structure CountResponse where
  count : Int
deriving DecidableEq, Repr

/-- Embeds `instantiate`: stores `{count: msg.count, owner: info.sender,
poll_count: 0}` and answers with the method/owner/count attributes. -/
def instantiate (store : Option State) (sender : String) (msg_count : Int) :
    Option State × Except ContractError (Response Empty) :=
  let _ := store
  (some { count := msg_count, owner := sender, poll_count := 0 },
   .ok { messages := [],
         attributes := [("method", "instantiate"), ("owner", sender),
                        ("count", toString msg_count)] })

/-- Embeds `try_increment`: `STATE.update` bumps `count` by one (i32 wrap) and
answers with attribute `method = try_increment`. -/
def try_increment (store : Option State) :
    Option State × Except ContractError (Response Empty) :=
  match store with
  | none => (none, .error .StoreErr)
  | some s =>
      (some { s with count := wrap32 (s.count + 1) },
       .ok { messages := [], attributes := [("method", "try_increment")] })

/-- Embeds `try_decrement`: `STATE.update` decrements `count` by one (i32 wrap);
the source answers with attribute `method = try_increment` (its literal text). -/
def try_decrement (store : Option State) :
    Option State × Except ContractError (Response Empty) :=
  match store with
  | none => (none, .error .StoreErr)
  | some s =>
      (some { s with count := wrap32 (s.count - 1) },
       .ok { messages := [], attributes := [("method", "try_increment")] })

/-- Embeds `try_reset`: inside `STATE.update`, a sender different from the
stored `owner` aborts with `Unauthorized` (no save); the owner stores the new
count and gets attribute `method = reset`. -/
def try_reset (store : Option State) (sender : String) (count : Int) :
    Option State × Except ContractError (Response Empty) :=
  match store with
  | none => (none, .error .StoreErr)
  | some s =>
      if sender ≠ s.owner then
        (some s, .error .Unauthorized)
      else
        (some { s with count := count },
         .ok { messages := [], attributes := [("method", "reset")] })

/-- Embeds the counter `execute` dispatcher. -/
def execute (store : Option State) (sender : String) :
    ExecuteMsg → Option State × Except ContractError (Response Empty)
  | .Increment => try_increment store
  | .Decrement => try_decrement store
  | .Reset count => try_reset store sender count

/-- Embeds `query_count`: loads the record and projects `count`. -/
def query_count (store : Option State) : Except ContractError CountResponse :=
  match store with
  | none => .error .StoreErr
  | some s => .ok { count := s.count }

end Counter

namespace Whitelist

/-- The admin-list module's persisted record (`state.rs`): the validated
roster and the mutability flag. -/
structure AdminList where
  admins : List String
  mutable : Bool
deriving DecidableEq, Repr

/-- Modelled from the spec: `AdminList::is_admin` is declared in the
repository's `state.rs`, which is not among the provided sources (only its
callers are).  The spec defines it as a pure membership test, independent of
`mutable`. -/
def AdminList.is_admin (cfg : AdminList) (addr : String) : Bool :=
  cfg.admins.contains addr

/-- Modelled from the spec: `AdminList::can_modify` is declared in the
repository's `state.rs`, which is not among the provided sources (only its
callers are).  The spec defines it as true iff `mutable == true` AND
`caller ∈ admins`. -/
def AdminList.can_modify (cfg : AdminList) (addr : String) : Bool :=
  cfg.mutable && cfg.is_admin addr

/-- Modelled from the spec: the host collaborator `api.addr_validate`
(address-format validation is out of scope), abstracted by a validity
predicate; a malformed identity is an `InvalidAddress` error, a valid one is
returned unchanged. -/
def addr_validate (valid : String → Bool) (a : String) :
    Except ContractError String :=
  if valid a then .ok a else .error (.InvalidAddress a)

/-- Embeds `map_validate`: `admins.iter().map(addr_validate).collect()`,
which stops at the first invalid address. -/
def map_validate (valid : String → Bool) :
    List String → Except ContractError (List String)
  | [] => .ok []
  | a :: rest =>
      match addr_validate valid a with
      | .error e => .error e
      | .ok v =>
          match map_validate valid rest with
          | .error e => .error e
          | .ok vs => .ok (v :: vs)

/-- `InstantiateMsg` of the admin-list module: the initial roster and the
mutability flag. -/
structure InstantiateMsg where
  admins : List String
  mutable : Bool
deriving DecidableEq, Repr

/-- `ExecuteMsg<T>` of the admin-list module: `Execute {msgs}`, `Freeze {}`,
`UpdateAdmins {admins}`. -/
inductive ExecuteMsg (M : Type) where
  | Execute : List M → ExecuteMsg M
  | Freeze : ExecuteMsg M
  | UpdateAdmins : List String → ExecuteMsg M
deriving DecidableEq, Repr

/-- `AdminListResponse` returned by `QueryMsg::AdminList`. -/
structure AdminListResponse where
  admins : List String
  mutable : Bool
deriving DecidableEq, Repr

/-- `cw1::CanExecuteResponse` returned by `QueryMsg::CanExecute`. -/
structure CanExecuteResponse where
  can_execute : Bool
deriving DecidableEq, Repr

/-- Embeds `instantiate`: validates the supplied roster (failing with the
first `InvalidAddress`), stores `{admins, mutable}` and answers with the
default (empty) response.  `info` is ignored by the source (`_info`); the
`sender` parameter is kept to mirror the entry-point signature. -/
def instantiate (valid : String → Bool) (store : Option AdminList)
    (sender : String) (msg : InstantiateMsg) :
    Option AdminList × Except ContractError (Response Empty) :=
  let _ := sender
  match map_validate valid msg.admins with
  | .error e => (store, .error e)
  | .ok addrs =>
      (some { admins := addrs, mutable := msg.mutable },
       .ok { messages := [], attributes := [] })

/-- Embeds `can_execute`: loads the record and tests `is_admin(sender)`. -/
def can_execute (store : Option AdminList) (sender : String) :
    Except ContractError Bool :=
  match store with
  | none => .error .StoreErr
  | some cfg => .ok (cfg.is_admin sender)

/-- Embeds `execute_execute`: a sender failing `can_execute` is rejected with
`Unauthorized`; otherwise the opaque sub-messages are forwarded verbatim with
attribute `action = execute`.  The store is never written. -/
def execute_execute {M : Type} (store : Option AdminList) (sender : String)
    (msgs : List M) : Option AdminList × Except ContractError (Response M) :=
  match can_execute store sender with
  | .error e => (store, .error e)
  | .ok b =>
      if !b then
        (store, .error .Unauthorized)
      else
        (store, .ok { messages := msgs, attributes := [("action", "execute")] })

/-- Embeds `execute_freeze`: loads the record, rejects a sender failing
`can_modify` with `Unauthorized`, otherwise sets `mutable := false`, saves,
and answers with attribute `action = freeze`. -/
def execute_freeze {M : Type} (store : Option AdminList) (sender : String) :
    Option AdminList × Except ContractError (Response M) :=
  match store with
  | none => (none, .error .StoreErr)
  | some cfg =>
      if !cfg.can_modify sender then
        (some cfg, .error .Unauthorized)
      else
        (some { cfg with mutable := false },
         .ok { messages := [], attributes := [("action", "freeze")] })

/-- Embeds `execute_update_admins`: loads the record, rejects a sender failing
`can_modify` with `Unauthorized`, otherwise validates the new roster, replaces
`admins` wholesale, saves, and answers with attribute `action = update_admins`.
A validation failure aborts before the save. -/
def execute_update_admins {M : Type} (valid : String → Bool)
    (store : Option AdminList) (sender : String) (admins : List String) :
    Option AdminList × Except ContractError (Response M) :=
  match store with
  | none => (none, .error .StoreErr)
  | some cfg =>
      if !cfg.can_modify sender then
        (some cfg, .error .Unauthorized)
      else
        match map_validate valid admins with
        | .error e => (some cfg, .error e)
        | .ok addrs =>
            (some { cfg with admins := addrs },
             .ok { messages := [], attributes := [("action", "update_admins")] })

/-- Embeds the admin-list `execute` dispatcher. -/
def execute {M : Type} (valid : String → Bool) (store : Option AdminList)
    (sender : String) :
    ExecuteMsg M → Option AdminList × Except ContractError (Response M)
  | .Execute msgs => execute_execute store sender msgs
  | .Freeze => execute_freeze store sender
  | .UpdateAdmins admins => execute_update_admins valid store sender admins

/-- Embeds `query_admin_list`: loads the record and projects both fields. -/
def query_admin_list (store : Option AdminList) :
    Except ContractError AdminListResponse :=
  match store with
  | none => .error .StoreErr
  | some cfg => .ok { admins := cfg.admins, mutable := cfg.mutable }

/-- Embeds `query_can_execute`: answers `can_execute(sender)`; the supplied
operation payload is accepted but not inspected (`_msg` in the source). -/
def query_can_execute {M : Type} (store : Option AdminList) (sender : String)
    (msg : M) : Except ContractError CanExecuteResponse :=
  let _ := msg
  match can_execute store sender with
  | .error e => .error e
  | .ok b => .ok { can_execute := b }

/-- The store component of one execute call, used to talk about arbitrary
sequences of subsequent calls. -/
def stepStore {M : Type} (valid : String → Bool) (store : Option AdminList)
    (call : String × ExecuteMsg M) : Option AdminList :=
  (execute valid store call.1 call.2).1

end Whitelist

namespace Whitelist

lemma execute_execute_store {M : Type} (store : Option AdminList) (c : String)
    (msgs : List M) : (execute_execute store c msgs).1 = store := by
  unfold execute_execute
  cases store with
  | none => rfl
  | some cfg =>
      simp only [can_execute]
      split <;> simp

lemma map_validate_ok_id (valid : String → Bool) :
    ∀ l l', map_validate valid l = .ok l' → l' = l := by
  intro l
  induction l with
  | nil => intro l' h; simpa [map_validate] using h.symm
  | cons a rest ih =>
      intro l' h
      unfold map_validate at h
      unfold addr_validate at h
      by_cases hv : valid a
      · simp [hv] at h
        rcases hmv : map_validate valid rest with e | vs
        · rw [hmv] at h; simp at h
        · rw [hmv] at h
          simp at h
          rw [← h, ih vs hmv]
      · simp [hv] at h

lemma map_validate_not_unauthorized (valid : String → Bool) :
    ∀ l, map_validate valid l ≠ .error .Unauthorized := by
  intro l
  induction l with
  | nil => simp [map_validate]
  | cons a rest ih =>
      unfold map_validate addr_validate
      by_cases hv : valid a
      · simp [hv]
        rcases hmv : map_validate valid rest with e | vs
        · simpa [hmv] using ih
        · simp
      · simp [hv]

lemma map_validate_all_valid (valid : String → Bool) :
    ∀ l, (∀ a ∈ l, valid a = true) → map_validate valid l = .ok l := by
  intro l
  induction l with
  | nil => intro _; simp [map_validate]
  | cons a rest ih =>
      intro h
      have ha : valid a = true := h a (List.mem_cons_self a rest)
      have hrest := ih (fun b hb => h b (List.mem_cons_of_mem a hb))
      simp [map_validate, addr_validate, ha, hrest]

end Whitelist

namespace Whitelist

/-- Claim C2: `can_modify c` holds iff `c` is in the stored `admins` and `mutable` is
true, and this predicate is exactly the `Unauthorized` gate of both `freeze`
and `update_admins`. -/
theorem can_modify_gate {M : Type} (valid : String → Bool) (cfg : AdminList)
    (c : String) (new_list : List String) :
    (cfg.can_modify c = true ↔ c ∈ cfg.admins ∧ cfg.mutable = true) ∧
    ((execute_freeze (M := M) (some cfg) c).2 = .error .Unauthorized ↔
      cfg.can_modify c = false) ∧
    ((execute_update_admins (M := M) valid (some cfg) c new_list).2 =
        .error .Unauthorized ↔ cfg.can_modify c = false) := by
  refine ⟨?_, ?_, ?_⟩
  · simp [AdminList.can_modify, AdminList.is_admin, List.elem_iff]
    tauto
  · unfold execute_freeze
    by_cases h : cfg.can_modify c <;> simp [h]
  · unfold execute_update_admins
    by_cases h : cfg.can_modify c <;> simp [h]
    rcases hmv : map_validate valid new_list with e | vs
    · have := map_validate_not_unauthorized valid new_list
      rw [hmv] at this
      simp
      intro he
      exact this (by rw [he])
    · simp

end Whitelist

namespace Whitelist

lemma execute_frozen_fst {M : Type} (valid : String → Bool) (cfg : AdminList)
    (h : cfg.mutable = false) (c : String) (m : ExecuteMsg M) :
    (execute valid (some cfg) c m).1 = some cfg := by
  cases m with
  | Execute msgs => exact execute_execute_store (some cfg) c msgs
  | Freeze => simp [execute, execute_freeze, AdminList.can_modify, h]
  | UpdateAdmins l => simp [execute, execute_update_admins, AdminList.can_modify, h]

/-- Claim C1: once `mutable` is false, `freeze` and `update_admins` fail with
`Unauthorized` for every caller, and no sequence of execute calls ever changes
the stored record again. -/
theorem freeze_terminal {M : Type} (valid : String → Bool) (cfg : AdminList)
    (h : cfg.mutable = false) :
    (∀ c, execute_freeze (M := M) (some cfg) c =
      (some cfg, .error .Unauthorized)) ∧
    (∀ c new_list, execute_update_admins (M := M) valid (some cfg) c new_list =
      (some cfg, .error .Unauthorized)) ∧
    (∀ c (m : ExecuteMsg M), (execute valid (some cfg) c m).1 = some cfg) ∧
    (∀ calls : List (String × ExecuteMsg M),
      calls.foldl (stepStore valid) (some cfg) = some cfg) := by
  refine ⟨?_, ?_, execute_frozen_fst valid cfg h, ?_⟩
  · intro c
    simp [execute_freeze, AdminList.can_modify, h]
  · intro c new_list
    simp [execute_update_admins, AdminList.can_modify, h]
  · intro calls
    induction calls with
    | nil => rfl
    | cons p rest ih =>
        have hstep : stepStore valid (some cfg) p = some cfg :=
          execute_frozen_fst valid cfg h p.1 p.2
        simpa [List.foldl_cons, hstep] using ih

/-- Claim C3: `query_can_execute` answers exactly `is_admin` of the queried identity;
the answer is unchanged under any change of the `mutable` flag or of the
operation payload (even across payload types). -/
theorem query_can_execute_eq_is_admin {M M' : Type} (cfg : AdminList)
    (c : String) (m : M) :
    query_can_execute (some cfg) c m = .ok ⟨cfg.is_admin c⟩ ∧
    (∀ (b1 b2 : Bool) (m' : M'),
      query_can_execute (some { cfg with mutable := b1 }) c m =
        query_can_execute (some { cfg with mutable := b2 }) c m') := by
  constructor
  · rfl
  · intro b1 b2 m'
    rfl

/-- Claim C9: with an empty roster, every execute call — `Execute`, `Freeze` or
`UpdateAdmins`, by any caller, even while `mutable` is true — fails with
`Unauthorized` and leaves the store unchanged, so the state never changes
again over any sequence of calls. -/
theorem empty_roster_inert {M : Type} (valid : String → Bool) (cfg : AdminList)
    (h : cfg.admins = []) :
    (∀ c (m : ExecuteMsg M),
      execute valid (some cfg) c m = (some cfg, .error .Unauthorized)) ∧
    (∀ calls : List (String × ExecuteMsg M),
      calls.foldl (stepStore valid) (some cfg) = some cfg) := by
  have hall : ∀ c (m : ExecuteMsg M),
      execute valid (some cfg) c m = (some cfg, .error .Unauthorized) := by
    intro c m
    cases m with
    | Execute msgs =>
        simp [execute, execute_execute, can_execute, AdminList.is_admin, h]
    | Freeze =>
        simp [execute, execute_freeze, AdminList.can_modify, AdminList.is_admin, h]
    | UpdateAdmins l =>
        simp [execute, execute_update_admins, AdminList.can_modify, AdminList.is_admin, h]
  refine ⟨hall, ?_⟩
  intro calls
  induction calls with
  | nil => rfl
  | cons p rest ih =>
      have hstep : stepStore valid (some cfg) p = some cfg := by
        simp [stepStore, hall p.1 p.2]
      simpa [List.foldl_cons, hstep] using ih

end Whitelist

namespace Whitelist

/-- Claim C4: for an authorized caller and a roster of valid identities,
`update_admins` replaces the stored roster wholesale — afterwards
`query_admin_list` reports exactly the new list, in order, independent of the
prior roster. -/
theorem update_admins_wholesale {M : Type} (valid : String → Bool)
    (cfg : AdminList) (c : String) (new_list : List String)
    (hmod : cfg.can_modify c = true)
    (hvalid : ∀ a ∈ new_list, valid a = true) :
    execute_update_admins (M := M) valid (some cfg) c new_list =
      (some { admins := new_list, mutable := cfg.mutable },
       .ok { messages := [], attributes := [("action", "update_admins")] }) ∧
    query_admin_list
        ((execute_update_admins (M := M) valid (some cfg) c new_list).1) =
      .ok { admins := new_list, mutable := cfg.mutable } := by
  have hmv := map_validate_all_valid valid new_list hvalid
  have hupd : execute_update_admins (M := M) valid (some cfg) c new_list =
      (some { admins := new_list, mutable := cfg.mutable },
       .ok { messages := [], attributes := [("action", "update_admins")] }) := by
    simp [execute_update_admins, hmod, hmv]
  exact ⟨hupd, by rw [hupd]; rfl⟩

/-- Claim C10: admin-list `instantiate` is independent of the sender — two runs that
differ only in the sender coincide — and on success the stored roster and flag
come verbatim from the message, so the instantiator has rights only through
membership in `msg.admins`. -/
theorem instantiate_ignores_sender (valid : String → Bool)
    (store : Option AdminList) (s1 s2 : String) (m : InstantiateMsg) :
    instantiate valid store s1 m = instantiate valid store s2 m ∧
    (∀ cfg r, instantiate valid store s1 m = (some cfg, .ok r) →
      cfg.admins = m.admins ∧ cfg.mutable = m.mutable ∧
      (∀ c, cfg.is_admin c = m.admins.contains c ∧
            cfg.can_modify c = (m.mutable && m.admins.contains c))) := by
  constructor
  · rfl
  · intro cfg r h
    unfold instantiate at h
    rcases hmv : map_validate valid m.admins with e | vs
    · rw [hmv] at h
      exact absurd (congrArg Prod.snd h) (by simp)
    · rw [hmv] at h
      simp at h
      have hvs : vs = m.admins := map_validate_ok_id valid m.admins vs hmv
      rcases h with ⟨hcfg, _⟩
      subst hvs
      rw [← hcfg]
      exact ⟨rfl, rfl, fun c => ⟨rfl, rfl⟩⟩

end Whitelist

/-- Claim C5: every execute or instantiate operation of either module that returns
an error leaves the persisted record exactly as it was; the counter
`instantiate` (which never errors) is stated as always succeeding. -/
theorem error_atomicity {M : Type} (valid : String → Bool) :
    (∀ (store : Option Whitelist.AdminList) (c : String)
        (m : Whitelist.ExecuteMsg M) (e : ContractError),
      (Whitelist.execute valid store c m).2 = .error e →
        (Whitelist.execute valid store c m).1 = store) ∧
    (∀ (store : Option Whitelist.AdminList) (c : String)
        (msg : Whitelist.InstantiateMsg) (e : ContractError),
      (Whitelist.instantiate valid store c msg).2 = .error e →
        (Whitelist.instantiate valid store c msg).1 = store) ∧
    (∀ (store : Option Counter.State) (c : String) (m : Counter.ExecuteMsg)
        (e : ContractError),
      (Counter.execute store c m).2 = .error e →
        (Counter.execute store c m).1 = store) ∧
    (∀ (store : Option Counter.State) (c : String) (n : Int),
      ∃ st r, Counter.instantiate store c n = (some st, .ok r)) := by
  refine ⟨?_, ?_, ?_, ?_⟩
  · intro store c m e h
    cases m with
    | Execute msgs => exact Whitelist.execute_execute_store store c msgs
    | Freeze =>
        cases store with
        | none => rfl
        | some cfg =>
            simp only [Whitelist.execute, Whitelist.execute_freeze] at h ⊢
            by_cases hc : cfg.can_modify c
            · simp [hc] at h
            · simp [hc]
    | UpdateAdmins l =>
        cases store with
        | none => rfl
        | some cfg =>
            simp only [Whitelist.execute, Whitelist.execute_update_admins] at h ⊢
            by_cases hc : cfg.can_modify c
            · simp [hc] at h ⊢
              rcases hmv : Whitelist.map_validate valid l with e' | vs
              · simp [hmv]
              · rw [hmv] at h; simp at h
            · simp [hc]
  · intro store c msg e h
    simp only [Whitelist.instantiate] at h ⊢
    rcases hmv : Whitelist.map_validate valid msg.admins with e' | vs
    · simp [hmv]
    · rw [hmv] at h; simp at h
  · intro store c m e h
    cases m with
    | Increment =>
        cases store with
        | none => rfl
        | some s => simp [Counter.execute, Counter.try_increment] at h
    | Decrement =>
        cases store with
        | none => rfl
        | some s => simp [Counter.execute, Counter.try_decrement] at h
    | Reset n =>
        cases store with
        | none => rfl
        | some s =>
            simp only [Counter.execute, Counter.try_reset] at h ⊢
            by_cases hc : c ≠ s.owner
            · simp [hc]
            · simp [hc] at h
  · intro store c n
    exact ⟨_, _, rfl⟩

/-- Claim C6 evidence: the source's `try_decrement` answers with the attribute
`method = try_increment` — the increment operation's name — while
`try_increment` answers with the same attribute; evaluated at a concrete
state. -/
theorem try_decrement_method_attr :
    Counter.try_decrement (some { count := 0, owner := "alice", poll_count := 0 }) =
      (some { count := -1, owner := "alice", poll_count := 0 },
       .ok { messages := [], attributes := [("method", "try_increment")] }) ∧
    Counter.try_increment (some { count := 0, owner := "alice", poll_count := 0 }) =
      (some { count := 1, owner := "alice", poll_count := 0 },
       .ok { messages := [], attributes := [("method", "try_increment")] }) := by
  constructor <;> rfl

/-- Claim C7: `reset` by a sender other than the stored owner fails with
`Unauthorized` and leaves the record unchanged; by the owner it succeeds,
stores the new count, and `query_count` then reports that count. -/
theorem try_reset_owner_gate (st : Counter.State) (c : String) (n : Int) :
    (c ≠ st.owner →
      Counter.try_reset (some st) c n = (some st, .error .Unauthorized)) ∧
    (c = st.owner →
      Counter.try_reset (some st) c n =
        (some { st with count := n },
         .ok { messages := [], attributes := [("method", "reset")] }) ∧
      Counter.query_count ((Counter.try_reset (some st) c n).1) =
        .ok { count := n }) := by
  constructor
  · intro h
    simp [Counter.try_reset, h]
  · intro h
    have hr : Counter.try_reset (some st) c n =
        (some { st with count := n },
         .ok { messages := [], attributes := [("method", "reset")] }) := by
      simp [Counter.try_reset, h]
    exact ⟨hr, by rw [hr]; rfl⟩

/-- Claim C8 counterexample: at the i32 maximum, `try_increment` succeeds but wraps
the count to the i32 minimum, which is not the old count plus one. -/
theorem increment_overflow_counterexample :
    (Counter.try_increment
        (some { count := 2147483647, owner := "alice", poll_count := 0 })).1 =
      some { count := -2147483648, owner := "alice", poll_count := 0 } ∧
    ((-2147483648 : Int) ≠ 2147483647 + 1) := by
  constructor
  · rfl
  · decide

lemma wrap32_eq_self (n : Int) (h1 : -(2 ^ 31) ≤ n) (h2 : n < 2 ^ 31) :
    Counter.wrap32 n = n := by
  unfold Counter.wrap32
  omega

/-- Claim C8 (amended): increment and decrement ignore the caller, always succeed on
a present record, leave `owner` and `poll_count` unchanged, and set `count` to
the two's-complement 32-bit wrap of `count ± 1` — which equals `count ± 1`
exactly whenever that value stays inside the i32 range. -/
theorem increment_decrement_frame (st : Counter.State) (c1 c2 : String) :
    (∀ store, Counter.execute store c1 .Increment =
        Counter.execute store c2 .Increment ∧
      Counter.execute store c1 .Decrement =
        Counter.execute store c2 .Decrement) ∧
    Counter.try_increment (some st) =
      (some { st with count := Counter.wrap32 (st.count + 1) },
       .ok { messages := [], attributes := [("method", "try_increment")] }) ∧
    Counter.try_decrement (some st) =
      (some { st with count := Counter.wrap32 (st.count - 1) },
       .ok { messages := [], attributes := [("method", "try_increment")] }) ∧
    (-(2 ^ 31) ≤ st.count + 1 → st.count + 1 < 2 ^ 31 →
      Counter.wrap32 (st.count + 1) = st.count + 1) ∧
    (-(2 ^ 31) ≤ st.count - 1 → st.count - 1 < 2 ^ 31 →
      Counter.wrap32 (st.count - 1) = st.count - 1) := by
  refine ⟨fun store => ⟨rfl, rfl⟩, rfl, rfl, ?_, ?_⟩
  · exact fun h1 h2 => wrap32_eq_self _ h1 h2
  · exact fun h1 h2 => wrap32_eq_self _ h1 h2

/-- Witness for claim C1 at a concrete frozen state. -/
theorem freeze_terminal_witness :
    Whitelist.execute_freeze (M := Unit)
        (some { admins := ["alice"], mutable := false }) "alice" =
      (some { admins := ["alice"], mutable := false }, .error .Unauthorized) ∧
    ([(("bob", Whitelist.ExecuteMsg.Freeze) : String × Whitelist.ExecuteMsg Unit),
        ("alice", .UpdateAdmins ["bob"])].foldl
        (Whitelist.stepStore (fun _ => true))
        (some { admins := ["alice"], mutable := false }) =
      some { admins := ["alice"], mutable := false }) :=
  ⟨(Whitelist.freeze_terminal (M := Unit) (fun _ => true)
      { admins := ["alice"], mutable := false } rfl).1 "alice",
   (Whitelist.freeze_terminal (M := Unit) (fun _ => true)
      { admins := ["alice"], mutable := false } rfl).2.2.2 _⟩

/-- Witness for claim C4 at the spec's scenario rosters. -/
theorem update_admins_wholesale_witness :
    Whitelist.execute_update_admins (M := Unit) (fun _ => true)
        (some { admins := ["alice", "bob", "carl"], mutable := true }) "alice"
        ["alice", "bob"] =
      (some { admins := ["alice", "bob"], mutable := true },
       .ok { messages := [], attributes := [("action", "update_admins")] }) :=
  (Whitelist.update_admins_wholesale (M := Unit) (fun _ => true)
    { admins := ["alice", "bob", "carl"], mutable := true } "alice"
    ["alice", "bob"] (by decide) (by decide)).1

/-- Witness for claim C10 at a concrete instantiate message and two senders. -/
theorem instantiate_ignores_sender_witness :
    Whitelist.instantiate (fun _ => true) none "deployer"
        { admins := ["alice"], mutable := true } =
      Whitelist.instantiate (fun _ => true) none "carol"
        { admins := ["alice"], mutable := true } ∧
    Whitelist.AdminList.is_admin { admins := ["alice"], mutable := true }
        "deployer" = (["alice"].contains "deployer") :=
  ⟨(Whitelist.instantiate_ignores_sender (fun _ => true) none "deployer" "carol"
      { admins := ["alice"], mutable := true }).1,
   (((Whitelist.instantiate_ignores_sender (fun _ => true) none "deployer" "carol"
        { admins := ["alice"], mutable := true }).2
      { admins := ["alice"], mutable := true }
      { messages := [], attributes := [] } rfl).2.2 "deployer").1⟩

/-- Witness for claim C5 at concrete erroring calls of each kind. -/
theorem error_atomicity_witness :
    (Whitelist.execute (M := Unit) (fun _ => true)
        (some { admins := [], mutable := true }) "alice"
        (.UpdateAdmins ["bob"])).1 = some { admins := [], mutable := true } ∧
    (Whitelist.instantiate (fun _ => false) none "alice"
        { admins := ["bad"], mutable := true }).1 = none ∧
    (Counter.execute (some { count := 5, owner := "alice", poll_count := 0 })
        "bob" (.Reset 100)).1 =
      some { count := 5, owner := "alice", poll_count := 0 } :=
  ⟨(error_atomicity (M := Unit) (fun _ => true)).1
      (some { admins := [], mutable := true }) "alice"
      (.UpdateAdmins ["bob"]) .Unauthorized rfl,
   (error_atomicity (M := Unit) (fun _ => false)).2.1 none "alice"
      { admins := ["bad"], mutable := true } (.InvalidAddress "bad") rfl,
   (error_atomicity (M := Unit) (fun _ => true)).2.2.1
      (some { count := 5, owner := "alice", poll_count := 0 }) "bob"
      (.Reset 100) .Unauthorized rfl⟩

/-- Witness for claim C7 at the spec's counter scenario. -/
theorem try_reset_owner_gate_witness :
    Counter.try_reset (some { count := 5, owner := "alice", poll_count := 0 })
        "bob" 100 =
      (some { count := 5, owner := "alice", poll_count := 0 },
       .error .Unauthorized) ∧
    Counter.try_reset (some { count := 5, owner := "alice", poll_count := 0 })
        "alice" 100 =
      (some { count := 100, owner := "alice", poll_count := 0 },
       .ok { messages := [], attributes := [("method", "reset")] }) :=
  ⟨(try_reset_owner_gate { count := 5, owner := "alice", poll_count := 0 }
      "bob" 100).1 (by decide),
   ((try_reset_owner_gate { count := 5, owner := "alice", poll_count := 0 }
      "alice" 100).2 rfl).1⟩

/-- Witness for claim C8 (amended) at a concrete in-range state. -/
theorem increment_decrement_frame_witness :
    Counter.try_increment
        (some { count := 5, owner := "alice", poll_count := 7 }) =
      (some { count := 6, owner := "alice", poll_count := 7 },
       .ok { messages := [], attributes := [("method", "try_increment")] }) ∧
    Counter.wrap32 (5 + 1) = 5 + 1 :=
  ⟨(increment_decrement_frame { count := 5, owner := "alice", poll_count := 7 }
      "a" "b").2.1,
   (increment_decrement_frame { count := 5, owner := "alice", poll_count := 7 }
      "a" "b").2.2.2.1 (by decide) (by decide)⟩

/-- Witness for claim C9 at a concrete empty-roster mutable state. -/
theorem empty_roster_inert_witness :
    Whitelist.execute (M := Unit) (fun _ => true)
        (some { admins := [], mutable := true }) "alice" .Freeze =
      (some { admins := [], mutable := true }, .error .Unauthorized) :=
  (Whitelist.empty_roster_inert (M := Unit) (fun _ => true)
    { admins := [], mutable := true } rfl).1 "alice" .Freeze

/-- Witness for claim C2 at a concrete admin and stranger. -/
theorem can_modify_gate_witness :
    Whitelist.AdminList.can_modify { admins := ["alice"], mutable := true }
        "alice" = true ∧
    (Whitelist.execute_freeze (M := Unit)
        (some { admins := ["alice"], mutable := true }) "bob").2 =
      .error .Unauthorized :=
  ⟨(Whitelist.can_modify_gate (M := Unit) (fun _ => true)
      { admins := ["alice"], mutable := true } "alice" []).1.2
      ⟨by decide, rfl⟩,
   (Whitelist.can_modify_gate (M := Unit) (fun _ => true)
      { admins := ["alice"], mutable := true } "bob" []).2.1.2 (by decide)⟩
